import Mathlib

/-!
Verification development for the resume-extraction repository
(`parser.py`, `excel_handler.py`, `app.py`, `db-handler.py`, `utils.py`).

The Python sources are shallowly embedded: pure string manipulation is
translated into executable Lean functions over `String`/`List Char`;
interactions with the outside world (the filesystem, the OCR binary, the
Ollama HTTP endpoint, `openpyxl` workbooks, time and randomness) are passed
in explicitly as values describing the outcome the external system produced,
so that every embedded function is total and every branch of the original
code is represented.
-/

namespace Extractor

/- ===================== String utilities ===================== -/

/-- Characters treated as whitespace by Python's `str.strip` / regex `\s`
(ASCII fragment). -/
def wsChar (c : Char) : Bool :=
  c = ' ' || c = '\t' || c = '\n' || c = '\r' || c = '\x0b' || c = '\x0c'

/-- Python `str.strip()`: drop leading and trailing whitespace. -/
def pyStrip (s : String) : String :=
  String.mk (((s.data.dropWhile wsChar).reverse.dropWhile wsChar).reverse)

/-- Python `str.lower()` (ASCII). -/
def pyLower (s : String) : String := String.mk (s.data.map Char.toLower)

/-- Python slice `s[:n]` (by code points). -/
def pyTake (n : Nat) (s : String) : String := String.mk (s.data.take n)

/-- Python `str.capitalize()`: first character upper-cased, rest lower-cased. -/
def pyCapitalize (s : String) : String :=
  match s.data with
  | [] => ""
  | c :: cs => String.mk (c.toUpper :: cs.map Char.toLower)

def splitCharAux (sep : Char) : List Char → List Char → List String
  | acc, [] => [String.mk acc.reverse]
  | acc, c :: cs =>
    if c = sep then String.mk acc.reverse :: splitCharAux sep [] cs
    else splitCharAux sep (c :: acc) cs

/-- Python `s.split(sep)` for a one-character separator. -/
def splitChar (sep : Char) (s : String) : List String := splitCharAux sep [] s.data

def splitWsAux : List Char → List Char → List String
  | acc, [] => [String.mk acc.reverse]
  | acc, c :: cs =>
    if wsChar c then String.mk acc.reverse :: splitWsAux [] cs
    else splitWsAux (c :: acc) cs

/-- Python `s.split()` (whitespace split, empty fields removed). -/
def pyWords (s : String) : List String :=
  (splitWsAux [] s.data).filter (fun w => w ≠ "")

/-- `sep.join(l)`. -/
def joinWith (sep : String) : List String → String
  | [] => ""
  | [x] => x
  | x :: y :: xs => x ++ sep ++ joinWith sep (y :: xs)

def collapseWsAux : Bool → List Char → List Char
  | _, [] => []
  | prevWs, c :: cs =>
    if wsChar c then
      if prevWs then collapseWsAux true cs else ' ' :: collapseWsAux true cs
    else c :: collapseWsAux false cs

/-- Python `re.sub(r'\s+', ' ', line)`: collapse whitespace runs to one space. -/
def collapseWs (s : String) : String := String.mk (collapseWsAux false s.data)

/-- `s.endswith(suffix)`. -/
def endsWithPy (s suffix : String) : Bool :=
  suffix.data.reverse.isPrefixOf s.data.reverse

/- ===================== excel_handler.py : row store ===================== -/

/-- A spreadsheet cell value (the embedded rows only ever hold the serial
number and strings). -/
inductive CellV where
  | natV (n : Nat)
  | strV (s : String)
deriving DecidableEq

/-- `DEFAULT_COLS` from excel_handler.py. -/
def DEFAULT_COLS : List String :=
  ["S.No.", "Name", "Email", "Phone", "OriginalFile", "DateApplied", "ResumePath"]

def headerCells : List CellV := DEFAULT_COLS.map CellV.strV

/-- The data fields `append_row` reads from its `data` dict. -/
structure RowData where
  name : String
  email : String
  phone : String
  originalFile : String
  resumePath : String

/-- One data row as built by `append_row` (excel_handler.py lines 66-74). -/
def mkDataRow (serial : Nat) (today : String) (d : RowData) : List CellV :=
  [CellV.natV serial, CellV.strV d.name, CellV.strV d.email, CellV.strV d.phone,
   CellV.strV d.originalFile, CellV.strV today, CellV.strV d.resumePath]

/-- `append_row` (excel_handler.py lines 41-83).  The workbook is modelled as
the list of its rows (header row included); `[]` models a workbook whose
single row is empty (`ws.max_row == 1 and ws.cell(1, 1).value is None`),
which is what both a fresh `Workbook()` and a missing file produce.  Today's
date string is an explicit argument.  On a non-empty sheet the serial number
is `ws.max_row`, i.e. the current number of rows. -/
def append_row (today : String) (sheet : List (List CellV)) (d : RowData) :
    List (List CellV) :=
  if sheet = [] then [headerCells, mkDataRow 1 today d]
  else sheet ++ [mkDataRow sheet.length today d]

/-- `ensure_excel` (excel_handler.py lines 15-38) on a missing file: a sheet
holding exactly the header row. -/
def ensure_excel : List (List CellV) := [headerCells]

/-- `read_all_rows` (excel_handler.py lines 212-221): every row from row 2 on
(`min_row=2`), in order. -/
def read_all_rows (sheet : List (List CellV)) : List (List CellV) := sheet.drop 1

/-- The `S.No.` cell of a row (first column). -/
def serialOf (row : List CellV) : Nat :=
  match row with
  | CellV.natV n :: _ => n
  | _ => 0

/-- The rows `append_row` adds, with serial numbers counting up from `k`. -/
def builtRows (today : String) (k : Nat) : List RowData → List (List CellV)
  | [] => []
  | d :: ds => mkDataRow k today d :: builtRows today (k + 1) ds

/- ========== excel_handler.py : time-windowed duplicate check ========== -/

/-- The `DateApplied` cell of a sheet row, as seen by
`email_duplicate_within_days` (excel_handler.py lines 105-177).  Parsing and
date arithmetic are performed by the external `datetime` library, so a cell
is modelled by which branch of the normalisation it takes: `missing` is a
falsy cell (`None` or the empty string); `isoOk d` is an ISO string that
`datetime.fromisoformat` parses to day number `d`; `isoBad` is a string it
raises `ValueError` on; `dtVal d` / `dateOnly d` are `datetime` / `date`
instances on day `d` (combining a `date` with midnight keeps its day); and
`otherType` is a value of any other type.  Time is counted in whole days, so
`(datetime.now() - applied_dt).days` is `now - d`. -/
inductive RowDate where
  | missing
  | isoOk (day : Int)
  | isoBad
  | dtVal (day : Int)
  | dateOnly (day : Int)
  | otherType
deriving DecidableEq

/-- One spreadsheet row as consulted by the duplicate check: the `Email`
column (index `EMAIL_COL_IDX`; `""` models a falsy or absent cell) and the
`DateApplied` column (index `DATE_COL_IDX`). -/
structure SheetRow where
  emailCell : String
  dateCell : RowDate

/-- `[e.strip().lower() for e in s.split(',') if e.strip()]` (used for both
the candidate's email string and each row's email cell). -/
def splitEmails (s : String) : List String :=
  ((splitChar ',' s).filter (fun e => pyStrip e ≠ "")).map (fun e => pyLower (pyStrip e))

/-- The `existing_emails_map` built at excel_handler.py lines 130-143: for
every email mentioned in a row's email cell, the first `DateApplied`
encountered wins. -/
def buildEmailMap (rows : List SheetRow) : List (String × RowDate) :=
  rows.foldl
    (fun m row =>
      if row.emailCell = "" then m
      else
        (splitEmails row.emailCell).foldl
          (fun m' e => if (m'.lookup e).isSome then m' else m' ++ [(e, row.dateCell)])
          m)
    []

/-- The per-date decision at excel_handler.py lines 148-170: a missing date,
a date that fails to parse, or a value of unknown type is conservatively a
duplicate; otherwise the row is a duplicate iff it was applied within
`days` days. -/
def dateDup (now days : Int) : RowDate → Bool
  | RowDate.missing => true
  | RowDate.isoBad => true
  | RowDate.otherType => true
  | RowDate.isoOk d => if now - d ≤ days then true else false
  | RowDate.dtVal d => if now - d ≤ days then true else false
  | RowDate.dateOnly d => if now - d ≤ days then true else false

/-- `email_duplicate_within_days` (excel_handler.py lines 105-177).  The
sheet is passed as its parsed rows (the `os.path.exists` guard and workbook
loading are filesystem effects outside the model; a missing file corresponds
to `rows = []`, which yields `false` just as the early return does). -/
def email_duplicate_within_days (now days : Int) (rows : List SheetRow)
    (emailStr : String) : Bool :=
  if emailStr = "" then false
  else if splitEmails emailStr = [] then false
  else
    (splitEmails emailStr).any fun e =>
      match (buildEmailMap rows).lookup e with
      | none => false
      | some d => dateDup now days d

/- ===================== parser.py : OCR engine ===================== -/

/-- `TESSERACT_PATHS` from `_run_ocr_on_image` (parser.py lines 67-73). -/
def TESSERACT_PATHS : List String :=
  ["C:\\Program Files\\Tesseract-OCR\\tesseract.exe",
   "C:\\Program Files (x86)\\Tesseract-OCR\\tesseract.exe"]

/-- The process-wide static attribute `_run_ocr_on_image.tesseract_cmd_path`:
`none` when the lookup has not run yet, `some p` once resolved (with
`p = none` when no well-known install path existed). -/
structure OcrCache where
  resolved : Option (Option String)

/-- The outcome of `Image.open` + `pytesseract.image_to_string` on one image:
recognised text, a missing `tesseract.exe` (`TesseractNotFoundError`), or any
other decoding/recognition exception. -/
inductive OcrOutcome where
  | ok (text : String)
  | tesseractMissing
  | decodeError

/-- The first-call probe over `TESSERACT_PATHS` (parser.py lines 75-79);
`fsExists` models `os.path.exists`. -/
def resolveTesseractCmd (fsExists : String → Bool) : Option String :=
  TESSERACT_PATHS.find? fsExists

/-- `_run_ocr_on_image` (parser.py lines 56-103): resolve the binary path
once per process, then OCR the image; both failure branches are caught and
return the empty string. -/
def run_ocr_on_image (fsExists : String → Bool) (cache : OcrCache)
    (outcome : OcrOutcome) : String × OcrCache :=
  let cache' :=
    match cache.resolved with
    | some _ => cache
    | none => OcrCache.mk (some (resolveTesseractCmd fsExists))
  match outcome with
  | OcrOutcome.ok t => (t, cache')
  | OcrOutcome.tesseractMissing => ("", cache')
  | OcrOutcome.decodeError => ("", cache')

/- ===================== parser.py : text extraction ===================== -/

/-- One PDF page as consumed by `extract_text`: the native text layer
(`page.get_text()`), and the OCR results for the page's embedded images in
order.  An image whose extraction raised (the inner `except` at parser.py
lines 141-142) contributes nothing, exactly like an image whose OCR returned
`""`, so both are represented by an empty string entry. -/
structure Page where
  native : String
  imagesOcr : List String

/-- What the file at the given path yields to the extraction libraries:
a PDF opened by `fitz`, a DOCX processed by `docx2txt` (native text plus the
OCR results of its extracted images, in directory order), or an exception
raised while opening/processing the document. -/
inductive FileContent where
  | pdfDoc (pages : List Page)
  | docxDoc (native : String) (imagesOcr : List String)
  | raisedError

/-- The PDF branch (parser.py lines 115-144): per page, keep the native text
if truthy, then every truthy OCR result, and join all parts with `"\n"`. -/
def pdfRawText (pages : List Page) : String :=
  joinWith "\n"
    (pages.foldr
      (fun p acc =>
        ((if p.native ≠ "" then [p.native] else []) ++
          p.imagesOcr.filter (fun t => t ≠ "")) ++ acc)
      [])

/-- The DOCX branch (parser.py lines 146-161): OCR results of the embedded
images (joined by `"\n"`, kept even when empty) prepended to the native
text. -/
def docxRawText (native : String) (imagesOcr : List String) : String :=
  joinWith "\n" imagesOcr ++ "\n" ++ native

/-- The combined raw text produced by the branch `extract_text` takes for
this path: `none` for an unsupported extension, for a content/extension
mismatch, and for the exception path (all of which return `("", [])`). -/
def rawTextOf (filePath : String) (content : FileContent) : Option String :=
  if endsWithPy (pyLower filePath) ".pdf" then
    match content with
    | FileContent.pdfDoc pages => some (pdfRawText pages)
    | _ => none
  else if endsWithPy (pyLower filePath) ".docx" then
    match content with
    | FileContent.docxDoc native imgs => some (docxRawText native imgs)
    | _ => none
  else none

/-- The cleaned line list (parser.py line 184): keep lines with non-blank
content, collapse whitespace runs and strip each. -/
def cleanedLinesOf (t : String) : List String :=
  ((splitChar '\n' t).filter (fun l => pyStrip l ≠ "")).map
    (fun l => pyStrip (collapseWs l))

/-- `extract_text` (parser.py lines 106-187). -/
def extract_text (filePath : String) (content : FileContent) :
    String × List String :=
  match rawTextOf filePath content with
  | none => ("", [])
  | some t =>
    if t = "" then ("", [])
    else if pyStrip t = "" then ("", [])
    else
      let cleaned := cleanedLinesOf t
      (pyTake 3000 (joinWith "\n" cleaned), cleaned)

/- ===================== parser.py : Ollama JSON handling ================ -/

def lbraceChar : Char := Char.ofNat 123

def rbraceChar : Char := Char.ofNat 125

/-- A JSON value as produced by `json.loads` on the extracted block:
strings, numbers (kept as the numeral written, standing for the Python
float/int — their numeric value is never consulted downstream), booleans,
`null`, and nested objects and arrays, which Python's parser accepts and
the source then stores in the returned record unchanged. -/
inductive JVal where
  | str (s : String)
  | num (s : String)
  | boolV (b : Bool)
  | null
  | obj (entries : List (String × JVal))
  | arr (elems : List JVal)

/-- The whitespace characters the JSON grammar (and `json.loads`) skips
between tokens: space, tab, newline, carriage return only. -/
def jsonWsChar (c : Char) : Bool := c = ' ' || c = '\t' || c = '\n' || c = '\r'

def skipJsonWs : List Char → List Char
  | [] => []
  | c :: cs => if jsonWsChar c then skipJsonWs cs else c :: cs

/-- The single-character escapes JSON strings allow; anything else after a
backslash (other than `\u`, handled separately) is a `JSONDecodeError`. -/
def jsonEscChar (c : Char) : Option Char :=
  if c = '"' then some '"'
  else if c = '\\' then some '\\'
  else if c = '/' then some '/'
  else if c = 'n' then some '\n'
  else if c = 't' then some '\t'
  else if c = 'r' then some '\r'
  else if c = 'b' then some '\x08'
  else if c = 'f' then some '\x0c'
  else none

def hexVal (c : Char) : Option Nat :=
  if c.isDigit then some (c.toNat - 48)
  else if 'a' ≤ c ∧ c ≤ 'f' then some (c.toNat - 87)
  else if 'A' ≤ c ∧ c ≤ 'F' then some (c.toNat - 55)
  else none

/-- JSON string body after the opening quote: ordinary characters, the
single-character escapes, and `\uXXXX` escapes; unescaped control
characters (code below 32) are rejected as `json.loads` (strict mode)
rejects them.  A `\uXXXX` escape whose code is a lone surrogate is accepted
by `json.loads` as well; `Char.ofNat` maps such codes to a placeholder, so
acceptance agrees and only the decoded character differs — no claim
consults it. -/
def parseJStringAux : List Char → List Char → Option (String × List Char)
  | _, [] => none
  | acc, c :: cs =>
    if c = '"' then some (String.mk acc.reverse, cs)
    else if c = '\\' then
      match cs with
      | [] => none
      | 'u' :: h1 :: h2 :: h3 :: h4 :: cs' =>
        match hexVal h1, hexVal h2, hexVal h3, hexVal h4 with
        | some a, some b, some c', some d =>
          parseJStringAux (Char.ofNat (((a * 16 + b) * 16 + c') * 16 + d) :: acc) cs'
        | _, _, _, _ => none
      | e :: cs' =>
        match jsonEscChar e with
        | some ch => parseJStringAux (ch :: acc) cs'
        | none => none
    else if c.toNat < 32 then none
    else parseJStringAux (c :: acc) cs

/-- Lex one JSON number by the grammar
`-? (0 | [1-9][0-9]*) (. [0-9]+)? ([eE] [+-]? [0-9]+)?`, returning the
numeral exactly as written.  Leading zeros, a bare `-`, and missing
fraction or exponent digits fail here, and a malformed tail such as the
second dot of `1.2.3` is left in the remainder, where the member parser
rejects it — both exactly as `json.loads` raises `JSONDecodeError`. -/
def parseJNum (l : List Char) : Option (String × List Char) :=
  let signed := match l with
    | '-' :: rest => (['-'], rest)
    | _ => (([] : List Char), l)
  match signed.2 with
  | [] => none
  | c :: _ =>
    if ¬ c.isDigit then none
    else
      let intDigits := signed.2.takeWhile Char.isDigit
      if c = '0' ∧ intDigits.length ≠ 1 then none
      else
        let l2 := signed.2.drop intDigits.length
        let fracRes : Option (List Char × List Char) :=
          match l2 with
          | '.' :: rest =>
            let fd := rest.takeWhile Char.isDigit
            if fd = [] then none else some ('.' :: fd, rest.drop fd.length)
          | _ => some ([], l2)
        match fracRes with
        | none => none
        | some (fracChars, l3) =>
          let expRes : Option (List Char × List Char) :=
            match l3 with
            | e :: rest =>
              if e = 'e' ∨ e = 'E' then
                let sgn := match rest with
                  | '+' :: r => (['+'], r)
                  | '-' :: r => (['-'], r)
                  | _ => (([] : List Char), rest)
                let ed := sgn.2.takeWhile Char.isDigit
                if ed = [] then none
                else some (e :: (sgn.1 ++ ed), sgn.2.drop ed.length)
              else some ([], l3)
            | [] => some ([], l3)
          match expRes with
          | none => none
          | some (expChars, l4) =>
            some (String.mk (signed.1 ++ intDigits ++ fracChars ++ expChars), l4)

/-- Object members after the opening brace, parsing each value with `pv`;
fuelled by the remaining input length (each member consumes at least one
character, so the fuel never runs out on a real input).  A trailing comma,
a missing colon or comma, and a non-string key all fail, as in
`json.loads`. -/
def parseMembersWith (pv : List Char → Option (JVal × List Char)) :
    Nat → List Char → List (String × JVal) →
    Option (List (String × JVal) × List Char)
  | 0, _, _ => none
  | fuel + 1, l, acc =>
    match skipJsonWs l with
    | [] => none
    | c :: cs =>
      if c = rbraceChar ∧ acc.isEmpty = true then some ([], cs)
      else if c = '"' then
        match parseJStringAux [] cs with
        | none => none
        | some (k, rest) =>
          match skipJsonWs rest with
          | ':' :: rest' =>
            match pv (skipJsonWs rest') with
            | none => none
            | some (v, rest'') =>
              match skipJsonWs rest'' with
              | ',' :: more =>
                match parseMembersWith pv fuel more ((k, v) :: acc) with
                | some (ms, fin) => some ((k, v) :: ms, fin)
                | none => none
              | d :: more =>
                if d = rbraceChar then some ([(k, v)], more) else none
              | [] => none
          | _ => none
      else none

/-- Array elements after the opening bracket, parsing each with `pv`;
fuelled like `parseMembersWith`. -/
def parseElemsWith (pv : List Char → Option (JVal × List Char)) :
    Nat → List Char → List JVal → Option (List JVal × List Char)
  | 0, _, _ => none
  | fuel + 1, l, acc =>
    match skipJsonWs l with
    | [] => none
    | c :: cs =>
      if c = ']' ∧ acc.isEmpty = true then some ([], cs)
      else
        match pv (c :: cs) with
        | none => none
        | some (v, rest) =>
          match skipJsonWs rest with
          | ',' :: more =>
            match parseElemsWith pv fuel more (v :: acc) with
            | some (vs, fin) => some (v :: vs, fin)
            | none => none
          | d :: more => if d = ']' then some ([v], more) else none
          | [] => none

/-- One JSON value: string, `true`/`false`/`null`, Python's accepted
non-standard constants `NaN`/`Infinity`/`-Infinity`, a number, or a nested
object or array.  The fuel bounds nesting depth; every recursive step
consumes the opening `{` or `[`, so `length + 1` fuel never runs out. -/
def parseJValF : Nat → List Char → Option (JVal × List Char)
  | 0, _ => none
  | fuel + 1, l =>
    match l with
    | [] => none
    | c :: cs =>
      if c = '"' then
        match parseJStringAux [] cs with
        | some (s, rest) => some (JVal.str s, rest)
        | none => none
      else if c = 't' then
        match cs with
        | 'r' :: 'u' :: 'e' :: rest => some (JVal.boolV true, rest)
        | _ => none
      else if c = 'f' then
        match cs with
        | 'a' :: 'l' :: 's' :: 'e' :: rest => some (JVal.boolV false, rest)
        | _ => none
      else if c = 'n' then
        match cs with
        | 'u' :: 'l' :: 'l' :: rest => some (JVal.null, rest)
        | _ => none
      else if c = 'N' then
        match cs with
        | 'a' :: 'N' :: rest => some (JVal.num "NaN", rest)
        | _ => none
      else if c = 'I' then
        match cs with
        | 'n' :: 'f' :: 'i' :: 'n' :: 'i' :: 't' :: 'y' :: rest =>
          some (JVal.num "Infinity", rest)
        | _ => none
      else if c = '-' then
        match cs with
        | 'I' :: 'n' :: 'f' :: 'i' :: 'n' :: 'i' :: 't' :: 'y' :: rest =>
          some (JVal.num "-Infinity", rest)
        | _ =>
          match parseJNum (c :: cs) with
          | some (raw, rest) => some (JVal.num raw, rest)
          | none => none
      else if c.isDigit then
        match parseJNum (c :: cs) with
        | some (raw, rest) => some (JVal.num raw, rest)
        | none => none
      else if c = lbraceChar then
        match parseMembersWith (parseJValF fuel) (cs.length + 1) cs [] with
        | some (ms, rest) => some (JVal.obj ms, rest)
        | none => none
      else if c = '[' then
        match parseElemsWith (parseJValF fuel) (cs.length + 1) cs [] with
        | some (vs, rest) => some (JVal.arr vs, rest)
        | none => none
      else none

/-- `json.loads` on the sliced block; `none` models `json.JSONDecodeError`.
The block handed over by `_call_ollama` always begins at the first `{` of
the response, so its top level is always an attempted object; a non-object
top level therefore cannot occur through `_call_ollama` and is mapped to
decode failure.  The whole input must be consumed up to trailing
whitespace, as `json.loads` demands. -/
def jsonLoads (s : String) : Option (List (String × JVal)) :=
  match parseJValF (s.data.length + 1) (skipJsonWs s.data) with
  | some (JVal.obj ms, rest) => if skipJsonWs rest = [] then some ms else none
  | _ => none

/-- Dictionary lookup; `json.loads` keeps the last occurrence of a duplicate
key, so the assembled list is searched from the right. -/
def jLookup (obj : List (String × JVal)) (k : String) : Option JVal :=
  match obj.reverse.find? (fun kv => kv.1 = k) with
  | some kv => some kv.2
  | none => none

/-- `get_key` (parser.py lines 228-231) combined with Python's `None`
semantics: a key holding JSON `null` yields Python `None` just like an
absent pair of keys does, and an exact-case hit does not fall through to the
capitalised key. -/
def getKeyPy (obj : List (String × JVal)) (k : String) : Option JVal :=
  match jLookup obj k with
  | some JVal.null => none
  | some v => some v
  | none =>
    match jLookup obj (pyCapitalize k) with
    | some JVal.null => none
    | some v => some v
    | none => none

/- ===================== parser.py : _call_ollama ===================== -/

/-- The outcome of `requests.post` + `response.json()` for one call:
`requestError` covers every `requests.exceptions.RequestException`
(connection failure, a non-2xx status via `raise_for_status`, and the
120-second timeout); `ok r` is a decoded JSON body whose `response` field is
`r` (`none` models an absent, `null` or otherwise falsy-free non-string
field, all of which take an error branch). -/
inductive HttpResult where
  | requestError
  | ok (responseField : Option String)

def findIdxChar (s : String) (c : Char) : Option Nat :=
  s.data.findIdx? (fun d => d = c)

def rfindIdxChar (s : String) (c : Char) : Option Nat :=
  match s.data.reverse.findIdx? (fun d => d = c) with
  | some k => some (s.data.length - 1 - k)
  | none => none

/-- `json_string[json_start : json_end + 1]` guarded by the two `find`
results (parser.py lines 217-224). -/
def jsonSliceOf (s : String) : Option String :=
  match findIdxChar s lbraceChar, rfindIdxChar s rbraceChar with
  | some i, some j => some (String.mk ((s.data.drop i).take (j + 1 - i)))
  | _, _ => none

/-- The dict `_call_ollama` returns on success. -/
structure ParsedTriple where
  name : JVal
  email : JVal
  phone : JVal

/-- `_call_ollama` (parser.py lines 192-259).  The prompt construction only
feeds the request, so the function is determined by the HTTP outcome.  Every
failure branch (request exception, empty `response` field, no JSON object
located, JSON decode error, missing keys) returns `none`; the enclosing
`try`/`except` means no exception escapes, which the embedding reflects by
being a total function into `Option`. -/
def call_ollama (r : HttpResult) : Option ParsedTriple :=
  match r with
  | HttpResult.requestError => none
  | HttpResult.ok none => none
  | HttpResult.ok (some js) =>
    if js = "" then none
    else
      match jsonSliceOf js with
      | none => none
      | some block =>
        match jsonLoads block with
        | none => none
        | some obj =>
          match getKeyPy obj "name", getKeyPy obj "email", getKeyPy obj "phone" with
          | some n, some e, some p => some (ParsedTriple.mk n e p)
          | _, _, _ => none

/-- The failure conditions named by the spec for the LLM call: HTTP request
failure, or failure to locate and parse a JSON object in the response. -/
def ollamaFailure (r : HttpResult) : Bool :=
  match r with
  | HttpResult.requestError => true
  | HttpResult.ok none => true
  | HttpResult.ok (some js) =>
    js = "" || (jsonSliceOf js).isNone || ((jsonSliceOf js).bind jsonLoads).isNone

/- ===================== parser.py : parse_resume ===================== -/

/-- The dict `parse_resume` returns (parser.py lines 279-285).  `ResumePath`
is `os.path.abspath(file_path)`; absolute-path resolution is a filesystem
effect, modelled as the given path itself. -/
structure ResumeRecord where
  name : JVal
  email : JVal
  phone : JVal
  resumePath : String
  textSnippet : String

/-- `parse_resume` (parser.py lines 263-289). -/
def parse_resume (filePath : String) (content : FileContent)
    (http : HttpResult) : Option ResumeRecord :=
  if (extract_text filePath content).1 = "" then none
  else if pyStrip (extract_text filePath content).1 = "" then none
  else
    match call_ollama http with
    | none => none
    | some p =>
      some (ResumeRecord.mk p.name p.email p.phone filePath
        (pyTake 800 (extract_text filePath content).1))

/- ============== app.py : orchestrator, new-candidate path ============== -/

def hexDigitChars : List Char := "0123456789abcdef".data

def nibbleChar (n : Nat) : Char := hexDigitChars.getD n '0'

/-- Two lowercase hex digits of one byte, as `bytes.hex` renders it. -/
def byteHex (b : Nat) : String :=
  String.mk [nibbleChar (b / 16 % 16), nibbleChar (b % 16)]

/-- `os.urandom(k).hex()`: the drawn bytes are passed in explicitly. -/
def bytesHex : List Nat → String
  | [] => ""
  | b :: bs => byteHex b ++ bytesHex bs

def isHexStr (s : String) : Bool := s.data.all (fun c => decide (c ∈ hexDigitChars))

/-- A row of the SQLite `candidates` table as returned by
`CandidateDB.get_candidate` (db-handler.py lines 36-58); only the fields the
orchestrator consults are carried. -/
structure DbRec where
  email : String
  name : String
  phone : String
  experience : String
deriving DecidableEq

/-- What the per-file body of `process_files_sequential` (app.py lines
628-693) did to the stores for one successfully parsed candidate:
whether the candidate was staged as a conflict, the email key passed to
`DB.upsert_candidate(..., is_update=False)` if that insert ran, and whether
an Excel row was appended. -/
structure StepOutcome where
  conflictStaged : Bool
  upsertedKey : Option String
  appendedRow : Bool
deriving DecidableEq

/-- Line 637: `data.get("Email", "").strip().lower()`. -/
def normEmail (e : String) : String := pyLower (pyStrip e)

/-- The duplicate-check-and-save step of `process_files_sequential`
(app.py lines 637-693) for one parsed candidate.  The identity-store
lookups (`DB.get_candidate`, `DB.get_candidates_by_name`) are passed in as
functions describing the store's answers, and `rand` is the byte string
drawn by `os.urandom(4)` at line 671.  UI updates and the Excel append's
contents are outside the outcome that the claims consult. -/
def processOneCandidate (checkDb : Bool) (dataName dataEmail : String)
    (lookupEmail : String → Option DbRec) (lookupName : String → List DbRec)
    (rand : List Nat) : StepOutcome :=
  let email := normEmail dataEmail
  let existingByEmail :=
    if checkDb then (if email ≠ "" then lookupEmail email else none) else none
  let existing :=
    match existingByEmail with
    | some r => some r
    | none =>
      if checkDb ∧ dataName ≠ "" then (lookupName dataName).head? else none
  match existing with
  | some _ => StepOutcome.mk true none false
  | none =>
    let saveEmail := if email = "" then "no_email_" ++ bytesHex rand else email
    StepOutcome.mk false (if checkDb then some saveEmail else none) true

/- ======= Spec-modelled components (absent from the src/ snapshot) ======= -/

/-- Parse a decimal numeral `<digits>[.<digits>]` as a rational. -/
def parseDecQ (s : String) : Option ℚ :=
  match splitChar '.' s with
  | [i] =>
    if i.data ≠ [] ∧ i.data.all Char.isDigit then
      some ((i.data.foldl (fun a c => a * 10 + (c.toNat - 48)) 0 : Nat) : ℚ)
    else none
  | [i, f] =>
    if i.data ≠ [] ∧ i.data.all Char.isDigit ∧ f.data.all Char.isDigit then
      some (((i.data.foldl (fun a c => a * 10 + (c.toNat - 48)) 0 : Nat) : ℚ) +
        ((f.data.foldl (fun a c => a * 10 + (c.toNat - 48)) 0 : Nat) : ℚ) /
          ((10 : ℚ) ^ f.data.length))
    else none
  | _ => none

/-- Defensive numeric parse of a stored experience string: non-numeric
defaults to `0` (spec §4.5). -/
def parseExpQ (s : String) : ℚ := (parseDecQ (pyStrip s)).getD 0

inductive Disposition where
  | New
  | ReApplicant
  | Duplicate
deriving DecidableEq

/-- A record of the identity store as the duplicate-resolution policy sees
it (spec §3 `ExistingRecord`). -/
structure StoreRec where
  email : String
  name : String
  phone : String
  experience : String
  lastApplied : String
  resumePath : String
  applicationCount : Nat
deriving DecidableEq

/-- The extracted identity of a candidate entering the policy. -/
structure Candidate where
  name : String
  email : String
  phone : String
  experience : String
  resumePath : String
deriving DecidableEq

/-- Modelled from the spec: the lookup order of `DuplicateResolutionPolicy`
(spec §4.5) — primary normalized email first, then, if the candidate has a
non-empty name, the first name match. -/
def storeLookup (cand : Candidate) (st : List StoreRec) : Option StoreRec :=
  let e := pyLower (pyStrip cand.email)
  match (if e ≠ "" then st.find? (fun r => r.email = e) else none) with
  | some r => some r
  | none =>
    if cand.name ≠ "" then (st.filter (fun r => r.name = cand.name)).head?
    else none

def freshStoreRec (now : String) (cand : Candidate) : StoreRec :=
  StoreRec.mk (pyLower (pyStrip cand.email)) cand.name cand.phone
    cand.experience now cand.resumePath 1

def updatedStore (st : List StoreRec) (key : String) (cand : Candidate)
    (now : String) : List StoreRec :=
  st.map fun r =>
    if r.email = key then
      StoreRec.mk r.email cand.name cand.phone cand.experience now
        cand.resumePath (r.applicationCount + 1)
    else r

/-- Modelled from the spec: `DuplicateResolutionPolicy.resolve` (spec §4.5).
The automatic experience-delta resolution is not implemented in the src/
snapshot (src/app.py only stages conflicts for a manual resolver window), so
the policy is rendered from the spec's words: check disabled → `New`;
no record found by email or name → `New` and an insert with count 1; a found
record → `ReApplicant` (record overwritten, count incremented, date
refreshed) exactly when the new numeric experience exceeds the stored one by
more than the 0.5-year tolerance, else `Duplicate` with the store
untouched. -/
def resolve (checkEnabled : Bool) (now : String) (cand : Candidate)
    (st : List StoreRec) : Disposition × List StoreRec :=
  if checkEnabled then
    match storeLookup cand st with
    | none => (Disposition.New, st ++ [freshStoreRec now cand])
    | some r =>
      if parseExpQ r.experience + 1 / 2 < parseExpQ cand.experience then
        (Disposition.ReApplicant, updatedStore st r.email cand now)
      else (Disposition.Duplicate, st)
  else (Disposition.New, st)

/- ---- Spec-modelled experience inference (spec §4.4) ---- -/

/-- A matched duration: the numeral as written plus its numeric value. -/
structure NumTok where
  raw : String
  val : ℚ
deriving DecidableEq

def numLexeme (w : String) : List Char :=
  w.data.takeWhile (fun c => c.isDigit || c = '.')

/-- A word standing for `<number>(+)?`: a decimal numeral optionally
followed by a single `+`. -/
def parseNumWord (w : String) : Option NumTok :=
  let pre := numLexeme w
  let rest := w.data.drop pre.length
  if pre ≠ [] ∧ (rest = [] ∨ rest = ['+']) then
    match parseDecQ (String.mk pre) with
    | some q => some (NumTok.mk (String.mk pre) q)
    | none => none
  else none

def stripTrailPunct (w : String) : String :=
  String.mk (w.data.reverse.dropWhile (fun c => ¬ c.isAlphanum)).reverse

/-- The unit word of `"<number>(+)? years|yrs"` (singular forms included,
trailing punctuation ignored). -/
def isYearsWord (w : String) : Bool :=
  let w' := pyLower (stripTrailPunct w)
  w' = "years" || w' = "year" || w' = "yrs" || w' = "yr"

/-- All explicit `"<number>(+)? years|yrs"` occurrences, in text order
(spec §4.4 rule 2). -/
def scanSimple : List String → List NumTok
  | w₁ :: w₂ :: ws =>
    (match (if isYearsWord w₂ then parseNumWord w₁ else none) with
     | some t => [t]
     | none => []) ++ scanSimple (w₂ :: ws)
  | _ => []

/-- All aggregate phrases `"experience: <number> years"` (spec §4.4
rule 1; an optional preceding `"total"` needs no extra handling). -/
def scanAgg : List String → List NumTok
  | w₁ :: w₂ :: w₃ :: ws =>
    (match (if pyLower w₁ = "experience:" ∧ isYearsWord w₃ then parseNumWord w₂
            else none) with
     | some t => [t]
     | none => []) ++ scanAgg (w₂ :: w₃ :: ws)
  | _ => []

def rangeYearOf (w : String) : Option Nat :=
  if w.data.length = 4 ∧ w.data.all Char.isDigit then
    some (w.data.foldl (fun a c => a * 10 + (c.toNat - 48)) 0)
  else none

def isPresentWord (w : String) : Bool :=
  let w' := pyLower (stripTrailPunct w)
  w' = "present" || w' = "current" || w' = "now"

/-- All non-negative `end - start` deltas of date ranges
`<4-digit year> - <4-digit year|present|current|now>` (spec §4.4 rule 3). -/
def scanRanges (currentYear : Nat) : List String → List Nat
  | w₁ :: w₂ :: w₃ :: ws =>
    (match (if w₂ = "-" then rangeYearOf w₁ else none) with
     | some a =>
       match (if isPresentWord w₃ then some currentYear else rangeYearOf w₃) with
       | some b => if a ≤ b then [b - a] else []
       | none => []
     | none => []) ++ scanRanges currentYear (w₂ :: w₃ :: ws)
  | _ => []

/-- Normalisation of the emitted numeral: no trailing `".0"` on whole
numbers (spec §4.4). -/
def normalizeNum (raw : String) : String :=
  if endsWithPy raw ".0" then String.mk (raw.data.take (raw.data.length - 2))
  else raw

/-- The maximum-valued match, scanning left to right (ties keep the earlier
match). -/
def maxTok (t : NumTok) (ts : List NumTok) : NumTok :=
  ts.foldl (fun a b => if a.val < b.val then b else a) t

/-- Modelled from the spec: `ExperienceInferencer.infer` (spec §4.4).  No
implementation exists in the src/ snapshot (the LLM variant of parser.py
does not extract experience, and the regex variants the spec describes are
absent), so the precedence is rendered from the spec's words: an aggregate
`"experience: N years"` phrase wins; otherwise the maximum explicit
`"<number> years|yrs"` occurrence; otherwise the maximum non-negative date
range span with `present`-like end words mapped to `currentYear`; otherwise
the empty string.  Output is `"<number> years"` with no trailing `".0"`. -/
def inferExperience (currentYear : Nat) (text : String) : String :=
  let ws := pyWords text
  match scanAgg ws with
  | t :: _ => normalizeNum t.raw ++ " years"
  | [] =>
    match scanSimple ws with
    | t :: ts => normalizeNum (maxTok t ts).raw ++ " years"
    | [] =>
      match scanRanges currentYear ws with
      | d :: ds => toString (ds.foldl max d) ++ " years"
      | [] => ""

/- ===================== Theorems ===================== -/

theorem foldl_append_row (today : String) :
    ∀ (ds : List RowData) (sheet : List (List CellV)), sheet ≠ [] →
      ds.foldl (append_row today) sheet = sheet ++ builtRows today sheet.length ds := by
  intro ds
  induction ds with
  | nil => intro sheet _; simp [builtRows]
  | cons d ds ih =>
    intro sheet h
    have hstep : append_row today sheet d = sheet ++ [mkDataRow sheet.length today d] := by
      unfold append_row; rw [if_neg h]
    have hne : sheet ++ [mkDataRow sheet.length today d] ≠ [] := by simp
    calc (d :: ds).foldl (append_row today) sheet
        = ds.foldl (append_row today) (sheet ++ [mkDataRow sheet.length today d]) := by
          rw [List.foldl_cons, hstep]
      _ = (sheet ++ [mkDataRow sheet.length today d]) ++
            builtRows today (sheet ++ [mkDataRow sheet.length today d]).length ds := ih _ hne
      _ = sheet ++ builtRows today sheet.length (d :: ds) := by
          rw [List.length_append, List.append_assoc]
          rfl

theorem builtRows_map_serial (today : String) :
    ∀ (ds : List RowData) (k : Nat),
      (builtRows today k ds).map serialOf = List.range' k ds.length := by
  intro ds
  induction ds with
  | nil => intro k; rfl
  | cons d ds ih =>
    intro k
    show serialOf (mkDataRow k today d) :: (builtRows today (k + 1) ds).map serialOf
        = List.range' k (ds.length + 1)
    rw [ih (k + 1)]
    rfl

/-- C6: appending N candidate records to an initially empty row-store
(`ensure_excel` followed by N calls of `append_row`) and reading them back
with `read_all_rows` yields exactly N rows whose serial numbers are
`1, 2, ..., N` in insertion order. -/
theorem excel_c6_serial_roundtrip (today : String) (ds : List RowData) :
    (read_all_rows (ds.foldl (append_row today) ensure_excel)).length = ds.length ∧
    (read_all_rows (ds.foldl (append_row today) ensure_excel)).map serialOf
      = List.range' 1 ds.length := by
  have h := foldl_append_row today ds ensure_excel (by simp [ensure_excel])
  have hread : read_all_rows (ds.foldl (append_row today) ensure_excel)
      = builtRows today 1 ds := by
    rw [h]; rfl
  rw [hread]
  refine ⟨?_, builtRows_map_serial today ds 1⟩
  calc (builtRows today 1 ds).length
      = ((builtRows today 1 ds).map serialOf).length := (List.length_map _ _).symm
    _ = (List.range' 1 ds.length).length := by rw [builtRows_map_serial]
    _ = ds.length := List.length_range' _ _ _

/-- C5: the time-windowed duplicate check returns `true` whenever one of the
candidate's (normalized) emails appears in the sheet's email map and the
matching row either was applied within `days` days or carries a missing,
unparseable, or unrecognised prior date. -/
theorem excel_c5_window_duplicate (now days : Int) (rows : List SheetRow)
    (emailStr e : String) (d : RowDate)
    (he : e ∈ splitEmails emailStr)
    (hd : (buildEmailMap rows).lookup e = some d)
    (hdup : (∃ day, (d = RowDate.isoOk day ∨ d = RowDate.dtVal day ∨
                d = RowDate.dateOnly day) ∧ now - day ≤ days) ∨
            d = RowDate.missing ∨ d = RowDate.isoBad ∨ d = RowDate.otherType) :
    email_duplicate_within_days now days rows emailStr = true := by
  have hstr : ¬ emailStr = "" := by
    intro h
    subst h
    rw [(by decide : splitEmails "" = [])] at he
    exact absurd he (List.not_mem_nil e)
  have hchecks : ¬ splitEmails emailStr = [] := by
    intro h; rw [h] at he; exact absurd he (List.not_mem_nil e)
  unfold email_duplicate_within_days
  rw [if_neg hstr, if_neg hchecks, List.any_eq_true]
  refine ⟨e, he, ?_⟩
  rw [hd]
  rcases hdup with ⟨day, hform, hle⟩ | hm | hm | hm
  · rcases hform with hf | hf | hf <;> subst hf <;> simp [dateDup, hle]
  all_goals subst hm; rfl

/-- C5 witness: a row for `A@x.com` with a missing prior date matches the
candidate email `a@x.com` (duplicate by the conservative rule), and a row
applied 10 days ago matches within the 30-day window. -/
theorem excel_c5_witness :
    email_duplicate_within_days 100 30
      [SheetRow.mk "A@x.com" RowDate.missing] "a@x.com" = true ∧
    email_duplicate_within_days 100 30
      [SheetRow.mk "b@x.com" (RowDate.isoOk 90)] "b@x.com" = true :=
  ⟨excel_c5_window_duplicate 100 30 [SheetRow.mk "A@x.com" RowDate.missing]
      "a@x.com" "a@x.com" RowDate.missing (by decide) (by decide)
      (Or.inr (Or.inl rfl)),
   excel_c5_window_duplicate 100 30 [SheetRow.mk "b@x.com" (RowDate.isoOk 90)]
      "b@x.com" "b@x.com" (RowDate.isoOk 90) (by decide) (by decide)
      (Or.inl ⟨90, Or.inl rfl, by decide⟩)⟩

/-- C8: the OCR wrapper never raises — it is a total function whose result
on a missing Tesseract binary (`TesseractNotFoundError`) or on any other
decoding/recognition failure is the empty string, in every cache state; a
successful recognition returns its text. -/
theorem ocr_c8_never_raises (fsExists : String → Bool) (cache : OcrCache) :
    (run_ocr_on_image fsExists cache OcrOutcome.tesseractMissing).1 = "" ∧
    (run_ocr_on_image fsExists cache OcrOutcome.decodeError).1 = "" ∧
    ∀ t, (run_ocr_on_image fsExists cache (OcrOutcome.ok t)).1 = t :=
  ⟨rfl, rfl, fun _ => rfl⟩

/-- C7: `extract_text` returns the empty result `("", [])`, raising nothing,
both for any path whose extension is neither `.pdf` nor `.docx` and for any
supported document whose extraction plus OCR yields no non-whitespace
text. -/
theorem extract_c7_empty_results (filePath : String) (content : FileContent) :
    (endsWithPy (pyLower filePath) ".pdf" = false →
      endsWithPy (pyLower filePath) ".docx" = false →
      extract_text filePath content = ("", [])) ∧
    (∀ t, rawTextOf filePath content = some t → pyStrip t = "" →
      extract_text filePath content = ("", [])) := by
  constructor
  · intro h1 h2
    unfold extract_text rawTextOf
    rw [h1, h2]
    simp
  · intro t hraw hstrip
    by_cases ht : t = ""
    · simp [extract_text, hraw, ht]
    · simp [extract_text, hraw, ht, hstrip]

/-- C7 witness: a `.txt` path is rejected, and a PDF whose only content is a
blank text layer plus whitespace-only OCR output yields the empty result. -/
theorem extract_c7_witness :
    extract_text "resume.txt" (FileContent.pdfDoc [Page.mk "text" []]) = ("", []) ∧
    extract_text "scan.pdf" (FileContent.pdfDoc [Page.mk "" ["", "  "]]) = ("", []) :=
  ⟨(extract_c7_empty_results "resume.txt" (FileContent.pdfDoc [Page.mk "text" []])).1
      (by decide) (by decide),
   (extract_c7_empty_results "scan.pdf" (FileContent.pdfDoc [Page.mk "" ["", "  "]])).2
      "  " (by decide) (by decide)⟩

/-- C9: on a successful extraction (raw text with some non-whitespace), the
returned text is the cleaned, newline-joined text truncated to the 3000
character budget — hence never longer than 3000 characters — while the
returned line list is the full, untruncated cleaned line list. -/
theorem extract_c9_truncation (filePath : String) (content : FileContent)
    (t : String) (hraw : rawTextOf filePath content = some t)
    (hne : ¬ pyStrip t = "") :
    extract_text filePath content
      = (pyTake 3000 (joinWith "\n" (cleanedLinesOf t)), cleanedLinesOf t) ∧
    (extract_text filePath content).1.length ≤ 3000 := by
  have ht : ¬ t = "" := by
    intro h; exact hne (by rw [h]; rfl)
  have heq : extract_text filePath content
      = (pyTake 3000 (joinWith "\n" (cleanedLinesOf t)), cleanedLinesOf t) := by
    simp [extract_text, hraw, ht, hne]
  refine ⟨heq, ?_⟩
  rw [heq]
  show ((joinWith "\n" (cleanedLinesOf t)).data.take 3000).length ≤ 3000
  exact List.length_take_le _ _

/-- C9 witness: a two-page PDF with native text and OCR text; the text
output is the joined cleaned lines (short enough to be untruncated here) and
the line list is the full cleaned list. -/
theorem extract_c9_witness :
    extract_text "cv.pdf"
        (FileContent.pdfDoc [Page.mk "  John   Doe " [], Page.mk "" ["ocr  line"]])
      = (pyTake 3000 (joinWith "\n"
          (cleanedLinesOf "  John   Doe \nocr  line")),
         cleanedLinesOf "  John   Doe \nocr  line") ∧
    (extract_text "cv.pdf"
        (FileContent.pdfDoc [Page.mk "  John   Doe " [], Page.mk "" ["ocr  line"]])).1.length
      ≤ 3000 :=
  extract_c9_truncation "cv.pdf"
    (FileContent.pdfDoc [Page.mk "  John   Doe " [], Page.mk "" ["ocr  line"]])
    "  John   Doe \nocr  line" (by decide) (by decide)

/-- C4: whenever the HTTP request fails (connection error, non-2xx status or
timeout, all surfacing as `requests` exceptions) or no JSON object can be
located and parsed in the response, `_call_ollama` returns `none`; its
embedding is a total function, reflecting that the source catches every
exception and never raises to the caller. -/
theorem ollama_c4_failure_none (r : HttpResult) (h : ollamaFailure r = true) :
    call_ollama r = none := by
  cases r with
  | requestError => rfl
  | ok rf =>
    cases rf with
    | none => rfl
    | some js =>
      simp only [ollamaFailure, Bool.or_eq_true] at h
      by_cases hjs : js = ""
      · simp [call_ollama, hjs]
      · cases hslice : jsonSliceOf js with
        | none => simp [call_ollama, hjs, hslice]
        | some block =>
          cases hload : jsonLoads block with
          | none => simp [call_ollama, hjs, hslice, hload]
          | some obj =>
            exfalso
            rcases h with (h | h) | h
            · exact hjs (by simpa using h)
            · rw [hslice] at h; simp at h
            · rw [hslice] at h; simp [hload] at h

/-- C4 witness: a 2xx response whose body contains no JSON object at all,
and one whose located block fails to decode (`json.loads` rejects the
malformed numeral `1.2.3`), both satisfy the failure predicate and yield
`none`. -/
theorem ollama_c4_witness :
    (ollamaFailure (HttpResult.ok (some "model did not emit json")) = true ∧
     call_ollama (HttpResult.ok (some "model did not emit json")) = none) ∧
    (ollamaFailure (HttpResult.ok (some
        "\x7b\"name\": 1.2.3, \"email\": \"\", \"phone\": \"\"\x7d")) = true ∧
     call_ollama (HttpResult.ok (some
        "\x7b\"name\": 1.2.3, \"email\": \"\", \"phone\": \"\"\x7d")) = none) :=
  ⟨⟨rfl, ollama_c4_failure_none
      (HttpResult.ok (some "model did not emit json")) rfl⟩,
   ⟨rfl, ollama_c4_failure_none
      (HttpResult.ok (some
        "\x7b\"name\": 1.2.3, \"email\": \"\", \"phone\": \"\"\x7d")) rfl⟩⟩

/-- Faithfulness check (not a claim): a response whose `name` value is a
nested JSON object decodes successfully — `json.loads` accepts it and the
source's `get_key` returns the dict, which passes the `is None` test — so
`_call_ollama` returns a record here, not `none`. -/
theorem call_ollama_nested_object_some :
    call_ollama (HttpResult.ok (some
        "\x7b\"name\": \x7b\"first\": \"John\"\x7d, \"email\": \"a@x\", \"phone\": \"1\"\x7d"))
      = some (ParsedTriple.mk (JVal.obj [("first", JVal.str "John")])
          (JVal.str "a@x") (JVal.str "1")) := rfl

/-- C1 counterexample: a PDF with non-empty text and an LLM reply that is a
well-formed JSON object whose `name`, `email` and `phone` are all empty
strings.  `parse_resume` returns this all-empty record as a successful
parse, contradicting the claim that it would return `None` whenever all
three extracted identity fields are empty. -/
theorem parse_resume_c1_counterexample :
    parse_resume "cv.pdf"
        (FileContent.pdfDoc [Page.mk "John applied for the role" []])
        (HttpResult.ok (some "\x7b\"name\": \"\", \"email\": \"\", \"phone\": \"\"\x7d"))
      = some (ResumeRecord.mk (JVal.str "") (JVal.str "") (JVal.str "") "cv.pdf"
          "John applied for the role") := rfl

/-- C1 amended: `parse_resume` returns `none` exactly when the extracted
text is empty or whitespace-only, or the LLM call produced no result; the
all-empty-identity filter described by the spec is not applied, so a record
with empty name, email and phone can be emitted (see the counterexample). -/
theorem parse_resume_c1_amended (filePath : String) (content : FileContent)
    (http : HttpResult) :
    parse_resume filePath content http = none ↔
      (pyStrip (extract_text filePath content).1 = "" ∨ call_ollama http = none) := by
  by_cases h0 : (extract_text filePath content).1 = ""
  · refine iff_of_true ?_ (Or.inl (by rw [h0]; rfl))
    unfold parse_resume
    rw [if_pos h0]
  · by_cases h1 : pyStrip (extract_text filePath content).1 = ""
    · refine iff_of_true ?_ (Or.inl h1)
      unfold parse_resume
      rw [if_neg h0, if_pos h1]
    · cases hc : call_ollama http with
      | none =>
        refine iff_of_true ?_ (Or.inr rfl)
        unfold parse_resume
        rw [if_neg h0, if_neg h1, hc]
      | some p =>
        refine iff_of_false ?_ ?_
        · unfold parse_resume
          rw [if_neg h0, if_neg h1, hc]
          exact Option.noConfusion
        · rintro (h | h)
          · exact h1 h
          · exact Option.noConfusion h

theorem nibbleChar_mem (n : Nat) : nibbleChar n ∈ hexDigitChars := by
  unfold nibbleChar
  rcases Nat.lt_or_ge n 16 with h | h
  · interval_cases n <;> decide
  · have hl : hexDigitChars.length ≤ n := by
      rw [(rfl : hexDigitChars.length = 16)]; exact h
    rw [List.getD_eq_default _ _ hl]
    decide

theorem bytesHex_length : ∀ bs : List Nat, (bytesHex bs).length = 2 * bs.length := by
  intro bs
  induction bs with
  | nil => rfl
  | cons b bs ih =>
    show (byteHex b ++ bytesHex bs).length = 2 * (bs.length + 1)
    rw [String.length_append, ih]
    show 2 + 2 * bs.length = 2 * (bs.length + 1)
    ring

theorem bytesHex_chars : ∀ (bs : List Nat) (c : Char),
    c ∈ (bytesHex bs).data → c ∈ hexDigitChars := by
  intro bs
  induction bs with
  | nil => intro c hc; exact absurd hc (List.not_mem_nil c)
  | cons b bs ih =>
    intro c hc
    have hdata : (bytesHex (b :: bs)).data = (byteHex b).data ++ (bytesHex bs).data := rfl
    rw [hdata, List.mem_append] at hc
    rcases hc with hc | hc
    · rcases List.mem_cons.mp hc with h1 | h1
      · exact h1 ▸ nibbleChar_mem _
      · rcases List.mem_cons.mp h1 with h2 | h2
        · exact h2 ▸ nibbleChar_mem _
        · exact absurd h2 (List.not_mem_nil c)
    · exact ih c hc

theorem isHexStr_bytesHex (bs : List Nat) : isHexStr (bytesHex bs) = true := by
  unfold isHexStr
  rw [List.all_eq_true]
  intro c hc
  rw [decide_eq_true_eq]
  exact bytesHex_chars bs c hc

/-- C10: with the identity-store check enabled, a parsed candidate whose
normalized email is empty and who matches no existing record is inserted
under the synthetic key `"no_email_"` followed by the hex encoding of the 4
random bytes — 8 lowercase hex characters, 17 characters in total, never the
empty string — so the store never receives an empty-string email key. -/
theorem app_c10_synthetic_key (dataName dataEmail : String)
    (lookupEmail : String → Option DbRec) (lookupName : String → List DbRec)
    (rand : List Nat) (hrand : rand.length = 4)
    (hemail : normEmail dataEmail = "")
    (hname : dataName = "" ∨ lookupName dataName = []) :
    (processOneCandidate true dataName dataEmail lookupEmail lookupName
        rand).upsertedKey = some ("no_email_" ++ bytesHex rand) ∧
    (bytesHex rand).length = 8 ∧
    ("no_email_" ++ bytesHex rand).length = 17 ∧
    ¬ "no_email_" ++ bytesHex rand = "" ∧
    isHexStr (bytesHex rand) = true := by
  have hlen8 : (bytesHex rand).length = 8 := by rw [bytesHex_length, hrand]
  have hlen17 : ("no_email_" ++ bytesHex rand).length = 17 := by
    rw [String.length_append, hlen8]
    decide
  refine ⟨?_, hlen8, hlen17, ?_, isHexStr_bytesHex rand⟩
  · have hkey : processOneCandidate true dataName dataEmail lookupEmail lookupName rand
        = StepOutcome.mk false (some ("no_email_" ++ bytesHex rand)) true := by
      rcases hname with hn | hn
      · simp [processOneCandidate, hemail, hn]
      · simp [processOneCandidate, hemail, hn]
    rw [hkey]
  · intro hcontra
    rw [hcontra] at hlen17
    exact absurd hlen17 (by decide)

/-- C10 witness: concrete candidate with empty email and no matching
records; the random bytes `ab cd 12 52` produce the key
`no_email_abcd1252`. -/
theorem app_c10_witness :
    (processOneCandidate true "Bob" "" (fun _ => none) (fun _ => [])
        [171, 205, 18, 82]).upsertedKey
      = some ("no_email_" ++ bytesHex [171, 205, 18, 82]) ∧
    (bytesHex [171, 205, 18, 82]).length = 8 ∧
    ("no_email_" ++ bytesHex [171, 205, 18, 82]).length = 17 ∧
    ¬ "no_email_" ++ bytesHex [171, 205, 18, 82] = "" ∧
    isHexStr (bytesHex [171, 205, 18, 82]) = true :=
  app_c10_synthetic_key "Bob" "" (fun _ => none) (fun _ => [])
    [171, 205, 18, 82] rfl rfl (Or.inr rfl)

/-- C2: whenever the lookup finds an existing record (check enabled), the
policy answers `ReApplicant` exactly when the candidate's numeric experience
exceeds the stored numeric experience by more than the 0.5-year tolerance
(non-numeric strings parsing defensively to 0), and otherwise answers
`Duplicate` with the store untouched. -/
theorem resolve_c2_tolerance (now : String) (cand : Candidate)
    (st : List StoreRec) (r : StoreRec) (h : storeLookup cand st = some r) :
    ((resolve true now cand st).1 = Disposition.ReApplicant ↔
      parseExpQ r.experience + 1 / 2 < parseExpQ cand.experience) ∧
    (¬ parseExpQ r.experience + 1 / 2 < parseExpQ cand.experience →
      resolve true now cand st = (Disposition.Duplicate, st)) := by
  by_cases hc : parseExpQ r.experience + 1 / 2 < parseExpQ cand.experience
  · have hres : resolve true now cand st
        = (Disposition.ReApplicant, updatedStore st r.email cand now) := by
      simp only [resolve, h, eq_self_iff_true, if_true]
      rw [if_pos hc]
    constructor
    · rw [hres]; exact iff_of_true rfl hc
    · intro hn; exact absurd hc hn
  · have hres : resolve true now cand st = (Disposition.Duplicate, st) := by
      simp only [resolve, h, eq_self_iff_true, if_true]
      rw [if_neg hc]
    constructor
    · rw [hres]
      exact iff_of_false (fun hx => Disposition.noConfusion hx) hc
    · intro _; exact hres

/-- C2 witness: the spec's worked example — stored experience 3.0 with new
experience 3.8 (delta 0.8 > 0.5) resolves to `ReApplicant`, while new
experience 3.3 (delta 0.3) resolves to `Duplicate` with the store
unchanged. -/
theorem resolve_c2_witness :
    ((resolve true "2026-02-01"
        (Candidate.mk "New Name" "a@x.com" "111" "3.8" "r1")
        [StoreRec.mk "a@x.com" "Old Name" "000" "3.0" "2025-01-01" "r0" 1]).1
      = Disposition.ReApplicant) ∧
    (resolve true "2026-02-01"
        (Candidate.mk "New Name" "a@x.com" "111" "3.3" "r1")
        [StoreRec.mk "a@x.com" "Old Name" "000" "3.0" "2025-01-01" "r0" 1]
      = (Disposition.Duplicate,
         [StoreRec.mk "a@x.com" "Old Name" "000" "3.0" "2025-01-01" "r0" 1])) :=
  ⟨((resolve_c2_tolerance "2026-02-01"
        (Candidate.mk "New Name" "a@x.com" "111" "3.8" "r1")
        [StoreRec.mk "a@x.com" "Old Name" "000" "3.0" "2025-01-01" "r0" 1]
        (StoreRec.mk "a@x.com" "Old Name" "000" "3.0" "2025-01-01" "r0" 1)
        (by decide)).1).mpr
      (by
        show ((3 : ℕ) : ℚ) + ((0 : ℕ) : ℚ) / (10 : ℚ) ^ 1 + 1 / 2
            < ((3 : ℕ) : ℚ) + ((8 : ℕ) : ℚ) / (10 : ℚ) ^ 1
        norm_num),
   (resolve_c2_tolerance "2026-02-01"
        (Candidate.mk "New Name" "a@x.com" "111" "3.3" "r1")
        [StoreRec.mk "a@x.com" "Old Name" "000" "3.0" "2025-01-01" "r0" 1]
        (StoreRec.mk "a@x.com" "Old Name" "000" "3.0" "2025-01-01" "r0" 1)
        (by decide)).2
      (by
        show ¬ ((3 : ℕ) : ℚ) + ((0 : ℕ) : ℚ) / (10 : ℚ) ^ 1 + 1 / 2
            < ((3 : ℕ) : ℚ) + ((3 : ℕ) : ℚ) / (10 : ℚ) ^ 1
        norm_num)⟩

theorem maxTok_ge : ∀ (ts : List NumTok) (t u : NumTok),
    u ∈ t :: ts → u.val ≤ (maxTok t ts).val := by
  intro ts
  induction ts with
  | nil =>
    intro t u hu
    rw [List.mem_singleton] at hu
    rw [hu]
    exact le_refl _
  | cons b ts ih =>
    intro t u hu
    have hstep : maxTok t (b :: ts) = maxTok (if t.val < b.val then b else t) ts := rfl
    have hhead : t.val ≤ (if t.val < b.val then b else t).val := by
      split
      · exact le_of_lt (by assumption)
      · exact le_refl _
    have hb : b.val ≤ (if t.val < b.val then b else t).val := by
      split
      · exact le_refl _
      · exact le_of_not_lt (by assumption)
    have htop : ∀ v : NumTok, v.val ≤ (if t.val < b.val then b else t).val →
        v.val ≤ (maxTok t (b :: ts)).val := by
      intro v hv
      rw [hstep]
      exact le_trans hv (ih _ _ (List.mem_cons_self _ _))
    rcases List.mem_cons.mp hu with hu | hu
    · exact htop u (hu ▸ hhead)
    · rcases List.mem_cons.mp hu with hu | hu
      · exact htop u (hu ▸ hb)
      · rw [hstep]
        exact ih _ _ (List.mem_cons_of_mem _ hu)

/-- C3: when the text contains at least one explicit
`"<number>(+)? years|yrs"` occurrence and no higher-precedence aggregate
`"experience: N years"` phrase, the inferencer returns the maximum matched
number normalized as `"<number> years"`. -/
theorem infer_c3_max_simple (currentYear : Nat) (text : String)
    (t : NumTok) (ts : List NumTok)
    (hagg : scanAgg (pyWords text) = [])
    (hsimple : scanSimple (pyWords text) = t :: ts) :
    inferExperience currentYear text = normalizeNum (maxTok t ts).raw ++ " years" ∧
    ∀ u ∈ scanSimple (pyWords text), u.val ≤ (maxTok t ts).val := by
  constructor
  · simp [inferExperience, hagg, hsimple]
  · rw [hsimple]
    exact fun u hu => maxTok_ge ts t u hu

/-- C3 witness: the spec's worked example,
`infer("3 years experience, 1 year internship") = "3 years"` — the maximum
of the simple matches 3 and 1. -/
theorem infer_c3_witness :
    scanAgg (pyWords "3 years experience, 1 year internship") = [] ∧
    scanSimple (pyWords "3 years experience, 1 year internship")
      = [NumTok.mk "3" 3, NumTok.mk "1" 1] ∧
    inferExperience 2026 "3 years experience, 1 year internship" = "3 years" := by
  have h := infer_c3_max_simple 2026 "3 years experience, 1 year internship"
    (NumTok.mk "3" 3) [NumTok.mk "1" 1] (by decide) (by decide)
  exact ⟨by decide, by decide, h.1.trans (by decide)⟩

end Extractor
